import Mathlib

/-!
Shallow embedding of the DOORMAX-style rule-learning core of the taxi
repository (src/src/doormax/mcelearner.rs, src/src/doormax/multirewardlearner.rs),
together with models of its external collaborators (world, state, condition,
condition learner, effects), which are declared by the repository but whose
source files are not part of the provided tree.  The collaborator models are
checked against the regression tests that live inside mcelearner.rs and
multirewardlearner.rs.
-/

namespace Taxi

/-- Modelled from the spec: a grid position as used by `taxi::position::Position`
(`Position::new(x, y)`, fields `x` and `y`). -/
structure Position where
  x : Nat
  y : Nat
deriving DecidableEq

/-- Modelled from the spec: the grid world (the text-format parser is excluded
by the spec, so a world is given extensionally).  `vwalls` holds pairs `(x, y)`
such that there is a wall between cell `(x, y)` and cell `(x+1, y)`; `hwalls`
holds pairs `(x, y)` such that there is a wall between `(x, y)` and `(x, y+1)`;
`stops` are the fixed positions (letter, (x, y)). -/
structure World where
  width : Nat
  height : Nat
  vwalls : List (Nat × Nat)
  hwalls : List (Nat × Nat)
  stops : List (Char × Nat × Nat)
deriving DecidableEq

/-- Modelled from the spec: fixed-position lookup exposed by `World`. -/
def World.get_fixed_position (w : World) (c : Char) : Option Position :=
  (w.stops.find? (fun sc => sc.1 == c)).map (fun sc => ⟨sc.2.1, sc.2.2⟩)

/-- Modelled from the spec: a state of the taxi MDP: taxi position, optional
passenger fixed-position tag (`none` means the passenger is inside the taxi),
and destination tag. -/
structure State where
  taxi : Position
  passenger : Option Char
  destination : Char
deriving DecidableEq

/-- Modelled from the spec: the error type of `State::build`. -/
inductive StateError where
  | badTaxi
  | badPassenger
  | badDestination
deriving DecidableEq

/-- Modelled from the spec: the validated `State::build(world, taxi_pos,
passenger, destination)` constructor required from the collaborator. -/
def State.build (w : World) (t : Nat × Nat) (p : Option Char) (d : Char) :
    Except StateError State :=
  if ¬ (t.1 < w.width ∧ t.2 < w.height) then .error .badTaxi
  else if (match p with
           | some c => (w.get_fixed_position c).isNone
           | none => false) then .error .badPassenger
  else if (w.get_fixed_position d).isNone then .error .badDestination
  else .ok ⟨⟨t.1, t.2⟩, p, d⟩

def World.touchN (w : World) (p : Position) : Bool :=
  p.y == 0 || w.hwalls.contains (p.x, p.y - 1)

def World.touchS (w : World) (p : Position) : Bool :=
  p.y + 1 == w.height || w.hwalls.contains (p.x, p.y)

def World.touchE (w : World) (p : Position) : Bool :=
  p.x + 1 == w.width || w.vwalls.contains (p.x, p.y)

def World.touchW (w : World) (p : Position) : Bool :=
  p.x == 0 || w.vwalls.contains (p.x - 1, p.y)

/-- A condition snapshot: a fixed-length vector of boolean literals.  The core
treats it as an opaque value type with per-literal comparison. -/
abbrev Condition := List Bool

/-- Modelled from the spec: the `Condition::new(world, state)` feature
extractor.  The literals are the Diuk-style taxi features: the four
touching-wall tests, taxi-on-passenger, taxi-on-destination, and
passenger-in-taxi.  This literal set reproduces every assertion of the
regression tests embedded in mcelearner.rs and multirewardlearner.rs. -/
def Condition.new (w : World) (s : State) : Condition :=
  [w.touchN s.taxi, w.touchS s.taxi, w.touchE s.taxi, w.touchW s.taxi,
   (match s.passenger with
    | some c => w.get_fixed_position c == some s.taxi
    | none => false),
   w.get_fixed_position s.destination == some s.taxi,
   s.passenger == none]

/-- Modelled from the spec: the version-space `ConditionLearner`.  `hyp` is the
conjunctive hypothesis: `none` while no positive example has been recorded,
otherwise one required-truth-value slot per literal (`none` = literal dropped).
`negatives` records the conditions seen as negative examples; a condition equal
to a recorded negative example is reported as a non-match even when the
hypothesis matches it (the regression test
`multirewardlearner_test::learns_dropoff` inside src requires this behaviour of
the missing condition_learner.rs). -/
structure ConditionLearner where
  hyp : Option (List (Option Bool))
  negatives : List (List Bool)
deriving DecidableEq

def ConditionLearner.new : ConditionLearner := ⟨none, []⟩

/-- Does every literal still required by the hypothesis hold in the condition? -/
def hypMatches (h : List (Option Bool)) (c : List Bool) : Bool :=
  (h.zip c).all fun rb =>
    match rb.1 with
    | none => true
    | some b => b == rb.2

/-- Modelled from the spec: three-valued query.  `none` = Unknown (no positive
example yet), `some true` = Match, `some false` = NoMatch. -/
def ConditionLearner.predict (cl : ConditionLearner) (c : Condition) : Option Bool :=
  match cl.hyp with
  | none => none
  | some h => some (hypMatches h c && !(cl.negatives.contains c))

/-- Intersect the hypothesis with a new positive example: any previously
required literal whose value differs in the example is dropped. -/
def generalize (h : List (Option Bool)) (c : List Bool) : List (Option Bool) :=
  (h.zip c).map fun rb =>
    match rb.1 with
    | none => none
    | some b => if b == rb.2 then some b else none

/-- Modelled from the spec: incremental update from one example. -/
def ConditionLearner.apply_experience (cl : ConditionLearner) (c : Condition)
    (matched : Bool) : ConditionLearner :=
  if matched then
    { cl with
      hyp := some (match cl.hyp with
        | none => c.map some
        | some h => generalize h c) }
  else
    { cl with negatives := c :: cl.negatives }

/-- Is every literal required by `h1` also required, with the same value, by `h2`? -/
def reqContained (h1 h2 : List (Option Bool)) : Bool :=
  (h1.zip h2).all fun rr =>
    match rr.1 with
    | none => true
    | some b => rr.2 == some b

/-- Hypothesis-disjointness test: per the comment in mcelearner.rs, `overlaps`
checks whether either learner's truth hypothesis is contained in the other's. -/
def ConditionLearner.overlaps (cl other : ConditionLearner) : Bool :=
  reqContained (cl.hyp.getD []) (other.hyp.getD []) ||
    reqContained (other.hyp.getD []) (cl.hyp.getD [])

/-- Drop from `h` any required literal that the other hypothesis also requires
with the same value. -/
def removeShared (h other : List (Option Bool)) : List (Option Bool) :=
  (h.zip other).map fun rr =>
    match rr.1 with
    | none => none
    | some b => if rr.2 == some b then none else some b

/-- Modelled from the spec: forced narrowing of a freshly seeded hypothesis
against a sibling rule's hypothesis. -/
def ConditionLearner.remove_overlap (cl other : ConditionLearner) : ConditionLearner :=
  match cl.hyp, other.hyp with
  | some h, some ho => { cl with hyp := some (removeShared h ho) }
  | _, _ => cl

/-- The error type of effect application and prediction composition
(effect::Error in the source). -/
inductive EffError where
  | outOfBounds
  | invalidState
deriving DecidableEq

/-- The Effect capability of the source (trait `Effect`): classify an observed
transition, and apply a learned effect value to a state. -/
class Effect (E : Type) where
  generate_effects : State → State → Option E
  apply : E → World → State → Except EffError State

/-- Change in the taxi x-coordinate, stored as a delta. -/
structure ChangeTaxiX where
  dx : Int
deriving DecidableEq

instance : Effect ChangeTaxiX where
  generate_effects old new :=
    if new.taxi.x == old.taxi.x then none
    else some ⟨(new.taxi.x : Int) - (old.taxi.x : Int)⟩
  apply e w s :=
    let nx : Int := (s.taxi.x : Int) + e.dx
    if 0 ≤ nx ∧ nx < (w.width : Int) then
      .ok { s with taxi := ⟨nx.toNat, s.taxi.y⟩ }
    else .error .outOfBounds

/-- Change in the taxi y-coordinate, stored as a delta. -/
structure ChangeTaxiY where
  dy : Int
deriving DecidableEq

instance : Effect ChangeTaxiY where
  generate_effects old new :=
    if new.taxi.y == old.taxi.y then none
    else some ⟨(new.taxi.y : Int) - (old.taxi.y : Int)⟩
  apply e w s :=
    let ny : Int := (s.taxi.y : Int) + e.dy
    if 0 ≤ ny ∧ ny < (w.height : Int) then
      .ok { s with taxi := ⟨s.taxi.x, ny.toNat⟩ }
    else .error .outOfBounds

/-- Change of the passenger location tag (including the in-taxi value `none`). -/
structure ChangePassenger where
  tag : Option Char
deriving DecidableEq

instance : Effect ChangePassenger where
  generate_effects old new :=
    if new.passenger == old.passenger then none else some ⟨new.passenger⟩
  apply e _ s := .ok { s with passenger := e.tag }

/-- The per-attribute, per-action rule set `CELearner<E>` of mcelearner.rs. -/
structure CELearner (E : Type) where
  condition_effects : List (ConditionLearner × E)

def CELearner.new (E : Type) : CELearner E := ⟨[]⟩

/-- The prediction loop of `CELearner::predict`, with the `full_result`
accumulator made explicit. -/
def CELearner.predictAux [Effect E] (w : World) (s : State) (c : Condition) :
    List (ConditionLearner × E) → Option State → Except EffError (Option State)
  | [], none => .ok (some s)
  | [], some r => .ok (some r)
  | (cl, e) :: rest, full =>
    match cl.predict c with
    | none => .ok none
    | some false => CELearner.predictAux w s c rest full
    | some true =>
      match Effect.apply e w s with
      | .error err => .error err
      | .ok result =>
        match full with
        | some fr =>
          if fr = result then CELearner.predictAux w s c rest (some fr)
          else .ok none
        | none => CELearner.predictAux w s c rest (some result)

/-- `CELearner::predict` (mcelearner.rs lines 24-77). -/
def CELearner.predict [Effect E] (l : CELearner E) (w : World) (s : State)
    (c : Condition) : Except EffError (Option State) :=
  CELearner.predictAux w s c l.condition_effects none

/-- The matched-true/matched-false update pass of `CELearner::apply_experience`:
rules whose stored effect equals the observed effect get a positive example,
all other rules a negative one. -/
def updateRules [DecidableEq E] (c : Condition) (eff : E)
    (rules : List (ConditionLearner × E)) : List (ConditionLearner × E) :=
  rules.map fun r =>
    if r.2 = eff then (r.1.apply_experience c true, r.2)
    else (r.1.apply_experience c false, r.2)

/-- The pairwise overlap scan over all pairs (i, j) with i < j. -/
def anyPairOverlap {E : Type} : List (ConditionLearner × E) → Bool
  | [] => false
  | r :: rest => rest.any (fun o => r.1.overlaps o.1) || anyPairOverlap rest

/-- Seed a fresh ConditionLearner on the condition and narrow it against every
existing rule via `remove_overlap`. -/
def seedLearner {E : Type} (c : Condition)
    (rules : List (ConditionLearner × E)) : ConditionLearner :=
  rules.foldl (fun cl r => cl.remove_overlap r.1)
    (ConditionLearner.new.apply_experience c true)

/-- `CELearner::apply_experience` (mcelearner.rs lines 79-142). -/
def CELearner.apply_experience [Effect E] [DecidableEq E] (l : CELearner E)
    (c : Condition) (old_state new_state : State) : CELearner E :=
  match (Effect.generate_effects old_state new_state : Option E) with
  | none =>
    ⟨l.condition_effects.map (fun r => (r.1.apply_experience c false, r.2))⟩
  | some observed =>
    let found := l.condition_effects.any (fun r => decide (r.2 = observed))
    let updated := updateRules c observed l.condition_effects
    if found then
      if anyPairOverlap updated then ⟨[]⟩ else ⟨updated⟩
    else
      ⟨updated ++ [(seedLearner c updated, observed)]⟩

/-- The six actions of the taxi domain (modelled from the spec and the usage in
maxq.rs); the per-action arrays are indexed through the `to_index` bijection. -/
inductive Actions where
  | North
  | South
  | East
  | West
  | PickUp
  | DropOff
deriving DecidableEq

def Actions.to_index : Actions → Fin 6
  | .North => 0
  | .South => 1
  | .East => 2
  | .West => 3
  | .PickUp => 4
  | .DropOff => 5

/-- The full-state transition model `MCELearner` of mcelearner.rs: one
`CELearner` per attribute per action. -/
structure MCELearner where
  taxi_x_learners : Fin 6 → CELearner ChangeTaxiX
  taxi_y_learners : Fin 6 → CELearner ChangeTaxiY
  passenger_learners : Fin 6 → CELearner ChangePassenger

def MCELearner.new : MCELearner :=
  ⟨fun _ => ⟨[]⟩, fun _ => ⟨[]⟩, fun _ => ⟨[]⟩⟩

/-- `MCELearner::predict` (mcelearner.rs lines 179-208). -/
def MCELearner.predict (m : MCELearner) (w : World) (s : State) (a : Actions) :
    Except EffError (Option State) :=
  let c := Condition.new w s
  let i := a.to_index
  match (m.taxi_x_learners i).predict w s c with
  | .error e => .error e
  | .ok none => .ok none
  | .ok (some px) =>
    match (m.taxi_y_learners i).predict w s c with
    | .error e => .error e
    | .ok none => .ok none
    | .ok (some py) =>
      match (m.passenger_learners i).predict w s c with
      | .error e => .error e
      | .ok none => .ok none
      | .ok (some pp) =>
        match State.build w (px.taxi.x, py.taxi.y) pp.passenger s.destination with
        | .error _ => .error .invalidState
        | .ok s2 => .ok (some s2)

/-- `MCELearner::apply_experience` (mcelearner.rs lines 210-223). -/
def MCELearner.apply_experience (m : MCELearner) (w : World) (s : State)
    (a : Actions) (new_state : State) : MCELearner :=
  let c := Condition.new w s
  let i := a.to_index
  { taxi_x_learners := fun j =>
      if j = i then (m.taxi_x_learners i).apply_experience c s new_state
      else m.taxi_x_learners j,
    taxi_y_learners := fun j =>
      if j = i then (m.taxi_y_learners i).apply_experience c s new_state
      else m.taxi_y_learners j,
    passenger_learners := fun j =>
      if j = i then (m.passenger_learners i).apply_experience c s new_state
      else m.passenger_learners j }

/-- The per-action reward rule set `RewardLearner` of multirewardlearner.rs.
The f64 rewards are modelled as rationals; all rewards occurring in the
repository are small integers, on which f64 equality agrees with
rational equality. -/
structure RewardLearner where
  condition_rewards : List (ConditionLearner × ℚ)

def RewardLearner.new : RewardLearner := ⟨[]⟩

/-- The prediction loop of `RewardLearner::predict`, with the `full_result`
accumulator made explicit. -/
def RewardLearner.predictAux (c : Condition) :
    List (ConditionLearner × ℚ) → Option ℚ → Option ℚ
  | [], full => full
  | (cl, lr) :: rest, full =>
    match cl.predict c with
    | none => none
    | some false => RewardLearner.predictAux c rest full
    | some true =>
      match full with
      | some fr =>
        if fr = lr then RewardLearner.predictAux c rest (some fr) else none
      | none => RewardLearner.predictAux c rest (some lr)

/-- `RewardLearner::predict` (multirewardlearner.rs lines 22-49). -/
def RewardLearner.predict (l : RewardLearner) (c : Condition) : Option ℚ :=
  RewardLearner.predictAux c l.condition_rewards none

/-- The matched-true/matched-false update pass of `RewardLearner::apply_experience`. -/
def updateRewardRules (c : Condition) (r : ℚ)
    (rules : List (ConditionLearner × ℚ)) : List (ConditionLearner × ℚ) :=
  rules.map fun p =>
    if r = p.2 then (p.1.apply_experience c true, p.2)
    else (p.1.apply_experience c false, p.2)

/-- `RewardLearner::apply_experience` (multirewardlearner.rs lines 51-118). -/
def RewardLearner.apply_experience (l : RewardLearner) (c : Condition) (r : ℚ) :
    RewardLearner :=
  let found := l.condition_rewards.any (fun p => decide (r = p.2))
  let updated := updateRewardRules c r l.condition_rewards
  if found then
    if anyPairOverlap updated then ⟨[]⟩ else ⟨updated⟩
  else
    let cl := seedLearner c updated
    if updated.any (fun p => cl.overlaps p.1) then ⟨[(cl, r)]⟩
    else ⟨updated ++ [(cl, r)]⟩

/-- The per-action array of reward rule sets, `MultiRewardLearner`. -/
structure MultiRewardLearner where
  reward_learners : Fin 6 → RewardLearner

def MultiRewardLearner.new : MultiRewardLearner := ⟨fun _ => ⟨[]⟩⟩

/-- `MultiRewardLearner::predict` (multirewardlearner.rs lines 151-156). -/
def MultiRewardLearner.predict (m : MultiRewardLearner) (w : World) (s : State)
    (a : Actions) : Option ℚ :=
  (m.reward_learners a.to_index).predict (Condition.new w s)

/-- `MultiRewardLearner::apply_experience` (multirewardlearner.rs lines 158-170). -/
def MultiRewardLearner.apply_experience (m : MultiRewardLearner) (w : World)
    (s : State) (a : Actions) (r : ℚ) : MultiRewardLearner :=
  let c := Condition.new w s
  let i := a.to_index
  ⟨fun j => if j = i then (m.reward_learners i).apply_experience c r
            else m.reward_learners j⟩

/-- The 5x5 world used by the regression tests inside mcelearner.rs and
multirewardlearner.rs, given extensionally (walls east of (1,0), (1,1), (0,3),
(2,3), (0,4), (2,4); stops R(0,0), G(2,1), Y(1,3), B(3,3)). -/
def w5 : World :=
  { width := 5
    height := 5
    vwalls := [(1, 0), (1, 1), (0, 3), (2, 3), (0, 4), (2, 4)]
    hwalls := []
    stops := [('R', (0, 0)), ('G', (2, 1)), ('Y', (1, 3)), ('B', (3, 3))] }

/-- The no-passenger state of `multirewardlearner_test::learns_dropoff`. -/
def noPassengerS : State := ⟨⟨3, 3⟩, some 'R', 'B'⟩

/-- The off-destination state of `multirewardlearner_test::learns_dropoff`. -/
def offDestinationS : State := ⟨⟨1, 3⟩, none, 'B'⟩

/-- The on-destination state of `multirewardlearner_test::learns_dropoff`. -/
def onDestinationS : State := ⟨⟨3, 3⟩, none, 'B'⟩

/-- The MultiRewardLearner after the exact experience sequence of
`multirewardlearner_test::learns_dropoff`. -/
def dropoffLearner : MultiRewardLearner :=
  ((MultiRewardLearner.new.apply_experience w5 noPassengerS .DropOff (-10)
    ).apply_experience w5 offDestinationS .DropOff (-10)
    ).apply_experience w5 onDestinationS .DropOff 0

/-- The pre-move state of `mcelearner_test::learns_taxi_east_simple`. -/
def eastOldS : State := ⟨⟨1, 3⟩, some 'R', 'B'⟩

/-- The post-move state of `mcelearner_test::learns_taxi_east_simple`
(taxi moved east to (2,3)). -/
def eastMovedS : State := ⟨⟨2, 3⟩, some 'R', 'B'⟩

/-- The MCELearner after the single east-move experience of
`mcelearner_test::learns_taxi_east_simple`. -/
def eastLearner : MCELearner :=
  MCELearner.new.apply_experience w5 eastOldS .East eastMovedS

/-- A state with a wall immediately to the taxi's east, used as an unrelated
condition for the east-move scenario. -/
def blockedS : State := ⟨⟨1, 1⟩, some 'R', 'B'⟩

/-- A rule set holding a rule with a matching condition learner whose effect
application fails (delta 10 walks off the grid), followed by a rule whose
condition learner has seen no positive example (and so answers Unknown). -/
def unknownRuleCE : CELearner ChangeTaxiX :=
  ⟨[(⟨some [], []⟩, ⟨10⟩), (ConditionLearner.new, ⟨0⟩)]⟩

/-- A rule set whose only rule has a condition learner with no examples. -/
def unknownRuleOnly : CELearner ChangeTaxiX :=
  ⟨[(ConditionLearner.new, ⟨0⟩)]⟩

/-- A rule set whose only rule requires the single literal to be true. -/
def noMatchCE : CELearner ChangeTaxiX :=
  ⟨[(⟨some [some true], []⟩, ⟨1⟩)]⟩

/-- A one-rule set whose rule matches every condition and stores an x-delta of 1. -/
def singleRuleCE : CELearner ChangeTaxiX :=
  ⟨[(⟨some [some true], []⟩, ⟨1⟩)]⟩

/-- A two-literal condition used by concrete reward-learner scenarios. -/
def cexCond : Condition := [true, false]

/-- A reward rule set with one rule seeded on `cexCond` carrying reward 5. -/
def rlC6 : RewardLearner :=
  ⟨[(ConditionLearner.new.apply_experience cexCond true, 5)]⟩

deriving instance DecidableEq for Except

/-- If every rule's condition learner answers NoMatch, the prediction loop
never touches the accumulator. -/
theorem predictAux_all_noMatch {E : Type} [Effect E] (w : World) (s : State)
    (c : Condition) (rules : List (ConditionLearner × E)) (full : Option State)
    (h : ∀ p ∈ rules, p.1.predict c = some false) :
    CELearner.predictAux w s c rules full =
      (match full with
       | none => .ok (some s)
       | some r => .ok (some r)) := by
  induction rules with
  | nil => cases full <;> rfl
  | cons hd tl ih =>
    have hhead := h hd (List.mem_cons_self _ _)
    have htail : ∀ p ∈ tl, p.1.predict c = some false :=
      fun p hp => h p (List.mem_cons_of_mem _ hp)
    obtain ⟨cl, e⟩ := hd
    simp only [CELearner.predictAux, hhead]
    exact ih htail

/-- If some rule's condition learner answers Unknown, the prediction loop ends
in Unknown or in an effect-application error. -/
theorem predictAux_unknown {E : Type} [Effect E] (w : World) (s : State)
    (c : Condition) (rules : List (ConditionLearner × E)) (full : Option State)
    (h : ∃ p ∈ rules, p.1.predict c = none) :
    CELearner.predictAux w s c rules full = .ok none ∨
      ∃ e, CELearner.predictAux w s c rules full = .error e := by
  induction rules generalizing full with
  | nil => simp at h
  | cons hd tl ih =>
    obtain ⟨cl, e⟩ := hd
    obtain ⟨p, hmem, hp⟩ := h
    rcases List.mem_cons.mp hmem with heq | hmemtl
    · subst heq
      left
      simp only [CELearner.predictAux, hp]
    · have htl : ∃ p ∈ tl, p.1.predict c = none := ⟨p, hmemtl, hp⟩
      cases hcl : cl.predict c with
      | none => left; simp only [CELearner.predictAux, hcl]
      | some b =>
        cases b with
        | false =>
          simpa only [CELearner.predictAux, hcl] using ih full htl
        | true =>
          cases happ : Effect.apply e w s with
          | error err =>
            right
            exact ⟨err, by simp only [CELearner.predictAux, hcl, happ]⟩
          | ok result =>
            cases full with
            | none =>
              simpa only [CELearner.predictAux, hcl, happ] using ih (some result) htl
            | some fr =>
              by_cases hfr : fr = result
              · simpa only [CELearner.predictAux, hcl, happ, if_pos hfr] using
                  ih (some fr) htl
              · left
                simp only [CELearner.predictAux, hcl, happ, if_neg hfr]

/-- Characterization of the reward prediction loop when the accumulator is
already set: the result is the accumulated reward, provided no remaining rule
is Unknown and every remaining matching rule agrees with it. -/
theorem rewardPredictAux_some (c : Condition)
    (rules : List (ConditionLearner × ℚ)) (r0 r : ℚ) :
    RewardLearner.predictAux c rules (some r0) = some r ↔
      (r = r0 ∧ (∀ p ∈ rules, p.1.predict c ≠ none) ∧
        ∀ p ∈ rules, p.1.predict c = some true → p.2 = r0) := by
  induction rules with
  | nil =>
    simp [RewardLearner.predictAux, eq_comm]
  | cons hd tl ih =>
    obtain ⟨cl, lr⟩ := hd
    cases hcl : cl.predict c with
    | none =>
      simp [RewardLearner.predictAux, hcl, List.forall_mem_cons]
    | some b =>
      cases b with
      | false =>
        simp [RewardLearner.predictAux, hcl, List.forall_mem_cons, ih]
      | true =>
        by_cases hlr : r0 = lr
        · subst hlr
          simp [RewardLearner.predictAux, hcl, List.forall_mem_cons, ih]
        · simp only [RewardLearner.predictAux, hcl, if_neg hlr]
          constructor
          · intro hfalse; cases hfalse
          · rintro ⟨-, -, hall⟩
            exact absurd (hall (cl, lr) (List.mem_cons_self _ _) hcl).symm hlr

/-- Characterization of `RewardLearner::predict`: a definite reward r is
returned exactly when no rule is Unknown, some rule matches, and every
matching rule carries the reward r. -/
theorem rewardPredictAux_none (c : Condition)
    (rules : List (ConditionLearner × ℚ)) (r : ℚ) :
    RewardLearner.predictAux c rules none = some r ↔
      ((∀ p ∈ rules, p.1.predict c ≠ none) ∧
        (∃ p ∈ rules, p.1.predict c = some true) ∧
        ∀ p ∈ rules, p.1.predict c = some true → p.2 = r) := by
  induction rules with
  | nil =>
    simp [RewardLearner.predictAux]
  | cons hd tl ih =>
    obtain ⟨cl, lr⟩ := hd
    cases hcl : cl.predict c with
    | none =>
      simp [RewardLearner.predictAux, hcl, List.forall_mem_cons]
    | some b =>
      cases b with
      | false =>
        simp [RewardLearner.predictAux, hcl, List.forall_mem_cons,
          List.exists_mem_cons_iff, ih]
      | true =>
        simp only [RewardLearner.predictAux, hcl, rewardPredictAux_some]
        constructor
        · rintro ⟨hr, hnu, hall⟩
          refine ⟨?_, ⟨(cl, lr), List.mem_cons_self _ _, hcl⟩, ?_⟩
          · intro p hp
            rcases List.mem_cons.mp hp with rfl | hp2
            · simp [hcl]
            · exact hnu p hp2
          · intro p hp hpt
            rcases List.mem_cons.mp hp with rfl | hp2
            · exact hr.symm
            · exact (hall p hp2 hpt).trans hr.symm
        · rintro ⟨hnu, -, hall⟩
          have hhead : lr = r := hall (cl, lr) (List.mem_cons_self _ _) hcl
          exact ⟨hhead.symm, fun p hp => hnu p (List.mem_cons_of_mem _ hp),
            fun p hp hpt => (hall p (List.mem_cons_of_mem _ hp) hpt).trans hhead.symm⟩

/-- The i-less-than-j overlap scan finds no overlapping pair exactly when the
rule conditions are pairwise non-overlapping. -/
theorem anyPairOverlap_eq_false {E : Type} (L : List (ConditionLearner × E)) :
    anyPairOverlap L = false ↔
      L.Pairwise (fun p q => p.1.overlaps q.1 = false) := by
  induction L with
  | nil => simp [anyPairOverlap]
  | cons hd tl ih =>
    simp [anyPairOverlap, List.pairwise_cons, ih, List.any_eq_false]

/-- C1: for every world, state and action, MCELearner::predict derives the
Condition once and queries the three per-attribute CELearners for that action
in order; it returns Ok(Some(s2)) only when all three return a definite result,
and then s2 is built from the predicted taxi x, the predicted taxi y, the
predicted passenger status and the input state's destination; when a queried
learner returns Unknown, the composite prediction is Ok(None). -/
theorem claim_C1_mcelearner_predict_composes (m : MCELearner) (w : World)
    (s : State) (a : Actions) :
    (∀ s2, m.predict w s a = .ok (some s2) →
      ∃ sx sy sp,
        (m.taxi_x_learners a.to_index).predict w s (Condition.new w s) = .ok (some sx) ∧
        (m.taxi_y_learners a.to_index).predict w s (Condition.new w s) = .ok (some sy) ∧
        (m.passenger_learners a.to_index).predict w s (Condition.new w s) = .ok (some sp) ∧
        State.build w (sx.taxi.x, sy.taxi.y) sp.passenger s.destination = .ok s2) ∧
    ((m.taxi_x_learners a.to_index).predict w s (Condition.new w s) = .ok none →
      m.predict w s a = .ok none) ∧
    (∀ sx, (m.taxi_x_learners a.to_index).predict w s (Condition.new w s) = .ok (some sx) →
      (m.taxi_y_learners a.to_index).predict w s (Condition.new w s) = .ok none →
      m.predict w s a = .ok none) ∧
    (∀ sx sy, (m.taxi_x_learners a.to_index).predict w s (Condition.new w s) = .ok (some sx) →
      (m.taxi_y_learners a.to_index).predict w s (Condition.new w s) = .ok (some sy) →
      (m.passenger_learners a.to_index).predict w s (Condition.new w s) = .ok none →
      m.predict w s a = .ok none) := by
  refine ⟨?_, ?_, ?_, ?_⟩
  · intro s2 hs2
    simp only [MCELearner.predict] at hs2
    cases hx : (m.taxi_x_learners a.to_index).predict w s (Condition.new w s) with
    | error e => simp only [hx] at hs2; cases hs2
    | ok ox =>
      simp only [hx] at hs2
      cases ox with
      | none => cases hs2
      | some sx =>
        cases hy : (m.taxi_y_learners a.to_index).predict w s (Condition.new w s) with
        | error e => simp only [hy] at hs2; cases hs2
        | ok oy =>
          simp only [hy] at hs2
          cases oy with
          | none => cases hs2
          | some sy =>
            cases hp : (m.passenger_learners a.to_index).predict w s (Condition.new w s) with
            | error e => simp only [hp] at hs2; cases hs2
            | ok op =>
              simp only [hp] at hs2
              cases op with
              | none => cases hs2
              | some sp =>
                cases hb : State.build w (sx.taxi.x, sy.taxi.y) sp.passenger s.destination with
                | error e => simp only [hb] at hs2; cases hs2
                | ok s3 =>
                  simp only [hb] at hs2
                  cases hs2
                  exact ⟨sx, sy, sp, rfl, rfl, rfl, hb⟩
  · intro hx
    simp only [MCELearner.predict, hx]
  · intro sx hx hy
    simp only [MCELearner.predict, hx, hy]
  · intro sx sy hx hy hp
    simp only [MCELearner.predict, hx, hy, hp]

/-- Witness for C1 at the fresh learner and the east-move test state: the
composite prediction is Ok(Some(s)), and the theorem recovers the three
definite per-attribute answers composing it. -/
theorem claim_C1_witness :
    MCELearner.new.predict w5 eastOldS .East = .ok (some eastOldS) ∧
    ∃ sx sy sp,
      (MCELearner.new.taxi_x_learners Actions.East.to_index).predict w5 eastOldS
        (Condition.new w5 eastOldS) = .ok (some sx) ∧
      (MCELearner.new.taxi_y_learners Actions.East.to_index).predict w5 eastOldS
        (Condition.new w5 eastOldS) = .ok (some sy) ∧
      (MCELearner.new.passenger_learners Actions.East.to_index).predict w5 eastOldS
        (Condition.new w5 eastOldS) = .ok (some sp) ∧
      State.build w5 (sx.taxi.x, sy.taxi.y) sp.passenger eastOldS.destination =
        .ok eastOldS :=
  ⟨by decide,
   (claim_C1_mcelearner_predict_composes MCELearner.new w5 eastOldS .East).1
     eastOldS (by decide)⟩

/-- C2 as stated is refuted: a rule whose condition learner is Unknown can be
preceded by a matching rule whose effect application fails, in which case
CELearner::predict propagates the error instead of returning Ok(None). -/
theorem claim_C2_counterexample :
    (∃ p ∈ unknownRuleCE.condition_effects,
      p.1.predict (Condition.new w5 eastOldS) = none) ∧
    unknownRuleCE.predict w5 eastOldS (Condition.new w5 eastOldS) =
      .error .outOfBounds := by
  constructor
  · exact ⟨(ConditionLearner.new, ⟨0⟩), by decide, rfl⟩
  · decide

/-- C2 (amended): if any rule's condition learner answers Unknown, then
CELearner::predict never returns a definite prediction: it returns Ok(None)
unless an earlier matching rule's effect application fails, in which case the
error is propagated. -/
theorem claim_C2_unknown_rule_no_definite {E : Type} [Effect E]
    (l : CELearner E) (w : World) (s : State) (c : Condition)
    (h : ∃ p ∈ l.condition_effects, p.1.predict c = none) :
    l.predict w s c = .ok none ∨ ∃ e, l.predict w s c = .error e :=
  predictAux_unknown w s c l.condition_effects none h

/-- Witness for the amended C2: a one-rule set whose rule is Unknown yields
Ok(None). -/
theorem claim_C2_witness :
    (∃ p ∈ unknownRuleOnly.condition_effects,
      p.1.predict (Condition.new w5 eastOldS) = none) ∧
    (unknownRuleOnly.predict w5 eastOldS (Condition.new w5 eastOldS) = .ok none ∨
      ∃ e, unknownRuleOnly.predict w5 eastOldS (Condition.new w5 eastOldS) = .error e) :=
  ⟨⟨(ConditionLearner.new, ⟨0⟩), by decide, rfl⟩,
   claim_C2_unknown_rule_no_definite unknownRuleOnly w5 eastOldS
     (Condition.new w5 eastOldS) ⟨(ConditionLearner.new, ⟨0⟩), by decide, rfl⟩⟩

/-- C3: when every rule's condition learner answers NoMatch, CELearner::predict
returns the confident no-effect answer Ok(Some(state)) with the state
unchanged. -/
theorem claim_C3_all_noMatch_default {E : Type} [Effect E]
    (l : CELearner E) (w : World) (s : State) (c : Condition)
    (h : ∀ p ∈ l.condition_effects, p.1.predict c = some false) :
    l.predict w s c = .ok (some s) :=
  predictAux_all_noMatch w s c l.condition_effects none h

/-- Witness for C3: a rule requiring a true literal does not match the
all-false condition, so the unchanged state is predicted. -/
theorem claim_C3_witness :
    (∀ p ∈ noMatchCE.condition_effects, p.1.predict [false] = some false) ∧
    noMatchCE.predict w5 eastOldS [false] = .ok (some eastOldS) :=
  ⟨by decide,
   claim_C3_all_noMatch_default noMatchCE w5 eastOldS [false] (by decide)⟩

/-- C4 as stated is refuted: a CELearner with an empty rule set answers with
the confident no-change prediction Ok(Some(state)), not with Unknown
(Ok(None)). -/
theorem claim_C4_counterexample :
    (CELearner.new ChangeTaxiX).predict w5 eastOldS (Condition.new w5 eastOldS) =
      .ok (some eastOldS) ∧
    (Except.ok (some eastOldS) : Except EffError (Option State)) ≠ .ok none := by
  decide

/-- C4 (amended): for every world, state and condition, a CELearner whose rule
set is empty — as it is immediately after a conflict reset — returns the
confident no-change answer Ok(Some(state)) from predict, not Unknown. -/
theorem claim_C4_empty_rule_set_default {E : Type} [Effect E]
    (w : World) (s : State) (c : Condition) :
    (CELearner.new E).predict w s c = .ok (some s) := rfl

/-- C5: in the matched-existing-rule branch of CELearner::apply_experience, the
rules first receive their matched updates; then, if some pair of rules
overlaps, every rule is discarded, and if no pair overlaps, no rule is
discarded. -/
theorem claim_C5_existing_rule_overlap_reset {E : Type} [Effect E]
    [DecidableEq E] (l : CELearner E) (c : Condition) (os ns : State) (eff : E)
    (hgen : (Effect.generate_effects os ns : Option E) = some eff)
    (hfound : (l.condition_effects.any fun r => decide (r.2 = eff)) = true) :
    (¬ (updateRules c eff l.condition_effects).Pairwise
        (fun p q => p.1.overlaps q.1 = false) →
      (l.apply_experience c os ns).condition_effects = []) ∧
    ((updateRules c eff l.condition_effects).Pairwise
        (fun p q => p.1.overlaps q.1 = false) →
      (l.apply_experience c os ns).condition_effects =
        updateRules c eff l.condition_effects) := by
  constructor
  · intro hover
    have hb : anyPairOverlap (updateRules c eff l.condition_effects) = true := by
      cases hb : anyPairOverlap (updateRules c eff l.condition_effects) with
      | false => exact absurd ((anyPairOverlap_eq_false _).mp hb) hover
      | true => rfl
    simp only [CELearner.apply_experience, hgen, hfound, hb, if_pos, if_true]
  · intro hover
    have hb : anyPairOverlap (updateRules c eff l.condition_effects) = false :=
      (anyPairOverlap_eq_false _).mpr hover
    simp only [CELearner.apply_experience, hgen, hfound, hb, if_true,
      Bool.false_eq_true, if_false]

/-- Witness for C5 at a one-rule set (no pairs, hence no overlap): the rule set
after the experience is exactly the matched-updated rule list. -/
theorem claim_C5_witness :
    (Effect.generate_effects eastOldS eastMovedS : Option ChangeTaxiX) =
        some ⟨1⟩ ∧
    (singleRuleCE.condition_effects.any fun r =>
        decide (r.2 = (⟨1⟩ : ChangeTaxiX))) = true ∧
    (singleRuleCE.apply_experience [true] eastOldS eastMovedS).condition_effects =
      updateRules [true] (⟨1⟩ : ChangeTaxiX) singleRuleCE.condition_effects :=
  ⟨by decide, by decide,
   (claim_C5_existing_rule_overlap_reset singleRuleCE [true] eastOldS eastMovedS
       ⟨1⟩ (by decide) (by decide)).2 (by simp [singleRuleCE, updateRules])⟩

/-- C6: whenever RewardLearner::apply_experience detects an overlap between
rule conditions, the previously learned rule set is discarded wholesale: after
updating an existing rule the set is left empty, and when introducing a new
rule the set is reset before the new rule is pushed, so it holds only the new
rule — in both cases no previously learned rule can influence later
predictions. -/
theorem claim_C6_reward_overlap_resets (l : RewardLearner) (c : Condition)
    (r : ℚ) :
    ((l.condition_rewards.any fun p => decide (r = p.2)) = true →
      anyPairOverlap (updateRewardRules c r l.condition_rewards) = true →
      (l.apply_experience c r).condition_rewards = []) ∧
    ((l.condition_rewards.any fun p => decide (r = p.2)) = false →
      ((updateRewardRules c r l.condition_rewards).any fun p =>
          (seedLearner c (updateRewardRules c r l.condition_rewards)).overlaps p.1) = true →
      (l.apply_experience c r).condition_rewards =
        [(seedLearner c (updateRewardRules c r l.condition_rewards), r)]) := by
  constructor
  · intro hfound hover
    simp only [RewardLearner.apply_experience, hfound, hover, if_true]
  · intro hfound hover
    simp only [RewardLearner.apply_experience, hfound, hover,
      Bool.false_eq_true, if_false, if_true]

/-- Witness for C6: observing a second, different reward for a condition whose
literals are all already required by the existing rule makes the freshly
narrowed learner empty, which overlaps the old rule; the set is reset and only
the new rule remains. -/
theorem claim_C6_witness :
    (rlC6.condition_rewards.any fun p => decide ((7 : ℚ) = p.2)) = false ∧
    ((updateRewardRules cexCond 7 rlC6.condition_rewards).any fun p =>
        (seedLearner cexCond (updateRewardRules cexCond 7 rlC6.condition_rewards)).overlaps p.1) = true ∧
    (rlC6.apply_experience cexCond 7).condition_rewards =
      [(seedLearner cexCond (updateRewardRules cexCond 7 rlC6.condition_rewards), 7)] :=
  ⟨by decide, by decide,
   (claim_C6_reward_overlap_resets rlC6 cexCond 7).2 (by decide) (by decide)⟩

/-- C7: RewardLearner::predict returns Unknown (None) if some rule's condition
learner answers Unknown; Unknown if two matching rules carry different rewards;
Unknown if no rule matches (in particular for an empty rule set); and, when no
rule is Unknown, a definite Some(r) exactly when at least one rule matches and
every matching rule carries the reward r. -/
theorem claim_C7_reward_predict_cases (l : RewardLearner) (c : Condition) :
    ((∃ p ∈ l.condition_rewards, p.1.predict c = none) → l.predict c = none) ∧
    ((∃ p ∈ l.condition_rewards, ∃ q ∈ l.condition_rewards,
        p.1.predict c = some true ∧ q.1.predict c = some true ∧ p.2 ≠ q.2) →
      l.predict c = none) ∧
    ((∀ p ∈ l.condition_rewards, p.1.predict c ≠ some true) → l.predict c = none) ∧
    ((∀ p ∈ l.condition_rewards, p.1.predict c ≠ none) →
      ∀ r : ℚ, (l.predict c = some r ↔
        (∃ p ∈ l.condition_rewards, p.1.predict c = some true) ∧
          ∀ p ∈ l.condition_rewards, p.1.predict c = some true → p.2 = r)) := by
  refine ⟨?_, ?_, ?_, ?_⟩
  · rintro ⟨p, hp, hpn⟩
    cases hres : l.predict c with
    | none => rfl
    | some r =>
      have := (rewardPredictAux_none c l.condition_rewards r).mp hres
      exact absurd hpn (this.1 p hp)
  · rintro ⟨p, hp, q, hq, hpt, hqt, hne⟩
    cases hres : l.predict c with
    | none => rfl
    | some r =>
      have hch := (rewardPredictAux_none c l.condition_rewards r).mp hres
      exact absurd ((hch.2.2 p hp hpt).trans (hch.2.2 q hq hqt).symm) hne
  · intro hnm
    cases hres : l.predict c with
    | none => rfl
    | some r =>
      have hch := (rewardPredictAux_none c l.condition_rewards r).mp hres
      obtain ⟨p, hp, hpt⟩ := hch.2.1
      exact absurd hpt (hnm p hp)
  · intro hnu r
    rw [RewardLearner.predict, rewardPredictAux_none]
    exact ⟨fun h => ⟨h.2.1, h.2.2⟩, fun h => ⟨hnu, h.1, h.2⟩⟩

/-- Witness for C7: a one-rule set whose rule has seen no example predicts
Unknown. -/
theorem claim_C7_witness :
    (∃ p ∈ (RewardLearner.mk [(ConditionLearner.new, 5)]).condition_rewards,
      p.1.predict cexCond = none) ∧
    (RewardLearner.mk [(ConditionLearner.new, 5)]).predict cexCond = none :=
  ⟨⟨(ConditionLearner.new, 5), by decide, rfl⟩,
   (claim_C7_reward_predict_cases (RewardLearner.mk [(ConditionLearner.new, 5)])
       cexCond).1 ⟨(ConditionLearner.new, 5), by decide, rfl⟩⟩

/-- C8: after the exact experience sequence of the learns_dropoff regression
test (DropOff rewards: -10 at the no-passenger state, -10 at the
off-destination state, then 0 at the on-destination state), the
MultiRewardLearner predicts 0 for the on-destination state and -10 for the two
-10 states, and in particular does not incorrectly predict -10 for the
on-destination condition. -/
theorem claim_C8_learns_dropoff :
    dropoffLearner.predict w5 onDestinationS .DropOff = some 0 ∧
    dropoffLearner.predict w5 offDestinationS .DropOff = some (-10) ∧
    dropoffLearner.predict w5 noPassengerS .DropOff = some (-10) ∧
    dropoffLearner.predict w5 onDestinationS .DropOff ≠ some (-10) := by
  refine ⟨by decide, by decide, by decide, by decide⟩

/-- C9 as stated is refuted: after the single east-move experience, the action
North is not covered by any experience, yet MCELearner::predict answers with
the confident unchanged state, not with Unknown (Ok(None)). -/
theorem claim_C9_counterexample :
    eastLearner.predict w5 eastOldS .North = .ok (some eastOldS) ∧
    eastLearner.predict w5 eastOldS .North ≠ .ok none := by
  decide

/-- C9 (amended): one east-move experience makes MCELearner::predict return the
moved state for that state and action, while predictions for conditions not
covered by the experience (the untried North action, and a state whose
condition does not match the learned rule) are the confident unchanged state
rather than Unknown. -/
theorem claim_C9_learns_taxi_east :
    eastLearner.predict w5 eastOldS .East = .ok (some eastMovedS) ∧
    eastLearner.predict w5 eastOldS .North = .ok (some eastOldS) ∧
    eastLearner.predict w5 blockedS .East = .ok (some blockedS) := by
  refine ⟨by decide, by decide, by decide⟩

/-- The per-action index mapping is injective. -/
theorem to_index_injective : Function.Injective Actions.to_index := by
  intro a b
  cases a <;> cases b <;> decide

/-- C10: MCELearner::apply_experience for action a changes only the three
per-attribute learners stored at a's index — the learners of every other
action are unchanged — and MultiRewardLearner::apply_experience likewise leaves
the reward learner of every other action unchanged. -/
theorem claim_C10_frame (m : MCELearner) (mr : MultiRewardLearner) (w : World)
    (s ns : State) (a : Actions) (r : ℚ) (b : Actions) (hab : b ≠ a) :
    (m.apply_experience w s a ns).taxi_x_learners b.to_index =
      m.taxi_x_learners b.to_index ∧
    (m.apply_experience w s a ns).taxi_y_learners b.to_index =
      m.taxi_y_learners b.to_index ∧
    (m.apply_experience w s a ns).passenger_learners b.to_index =
      m.passenger_learners b.to_index ∧
    (mr.apply_experience w s a r).reward_learners b.to_index =
      mr.reward_learners b.to_index := by
  have hi : b.to_index ≠ a.to_index := fun hh => hab (to_index_injective hh)
  refine ⟨?_, ?_, ?_, ?_⟩ <;>
    simp only [MCELearner.apply_experience, MultiRewardLearner.apply_experience,
      if_neg hi]

/-- Witness for C10: a North-indexed learner is unchanged by an East
experience. -/
theorem claim_C10_witness :
    Actions.North ≠ Actions.East ∧
    ((MCELearner.new.apply_experience w5 eastOldS .East eastMovedS).taxi_x_learners
        Actions.North.to_index = MCELearner.new.taxi_x_learners Actions.North.to_index ∧
     (MCELearner.new.apply_experience w5 eastOldS .East eastMovedS).taxi_y_learners
        Actions.North.to_index = MCELearner.new.taxi_y_learners Actions.North.to_index ∧
     (MCELearner.new.apply_experience w5 eastOldS .East eastMovedS).passenger_learners
        Actions.North.to_index = MCELearner.new.passenger_learners Actions.North.to_index ∧
     (MultiRewardLearner.new.apply_experience w5 eastOldS .East 0).reward_learners
        Actions.North.to_index = MultiRewardLearner.new.reward_learners Actions.North.to_index) :=
  ⟨by decide,
   claim_C10_frame MCELearner.new MultiRewardLearner.new w5 eastOldS eastMovedS
     .East 0 .North (by decide)⟩

end Taxi
